import Mathlib

/-!
Verification of the data-access core of the `cdn` repository: the user
repository (`crates/database/src/models/user.rs`), the error taxonomy
(`crates/database/src/utils/error.rs`) and the lazily initialized
connection manager (`crates/database/src/utils/connection.rs`).

The SQL statements issued by the repository are embedded as pure Lean
functions over an explicit database state.  The pgcrypto primitives
`crypt` / `gen_salt` are modelled by an idealized collision-free hash:
a value of type `BcryptHash` records the salt it was generated with and
the passphrase it digests, and `crypt(p, h) = h` holds exactly when `p`
is the passphrase `h` was built from, which is the semantics the SQL in
the source relies on.
-/

/-- Idealized bcrypt digest: `salt` is the random salt (drawn from the
database state's salt supply, modelling `gen_salt('bf')`), `phrase` the
passphrase the digest was computed from.  One-wayness is reflected by the
fact that no operation in the model ever projects `phrase` back out. -/
structure BcryptHash where
  salt : Nat
  phrase : String
deriving DecidableEq, Repr

/-- A text value as it can sit in the `password` column or flow through
`crypt`: arbitrary plain text, the output of `gen_salt`, or the output of
`crypt`.  The repository only ever stores `hash` values (or SQL NULL,
modelled as `Option.none` at the column level). -/
inductive PwText where
  | plain (s : String)
  | saltText (n : Nat)
  | hash (h : BcryptHash)
deriving DecidableEq, Repr

/-- pgcrypto `gen_salt('bf')`: a fresh salt drawn from the state's salt
counter. -/
def gen_salt (n : Nat) : PwText :=
  PwText.saltText n

/-- pgcrypto `crypt(pw, setting)`: hashes `pw` using the salt embedded in
`setting`.  When `setting` is an existing hash, the result equals
`setting` iff `pw` is the phrase that hash was computed from (bcrypt's
verification idiom `crypt(pw, stored) = stored`).  When `setting` is not
a valid salt or hash, the result is a digest that never compares equal to
`setting`. -/
def crypt (pw : String) (setting : PwText) : PwText :=
  match setting with
  | PwText.saltText n => PwText.hash ⟨n, pw⟩
  | PwText.hash h => PwText.hash ⟨h.salt, pw⟩
  | PwText.plain _ => PwText.hash ⟨0, pw⟩

/-- SQL truth value of `crypt($pw, password) = password` under three-valued
logic: if either operand is NULL the comparison is UNKNOWN, which WHERE and
CASE both treat as not-true. -/
def sqlVerify (pw : Option String) (stored : Option PwText) : Bool :=
  match pw, stored with
  | some p, some t => crypt p t == t
  | _, _ => false

/-- sqlx driver errors, as far as the repository distinguishes them:
`fetch_one` on zero rows yields `RowNotFound`; everything else is opaque. -/
inductive SqlxError where
  | RowNotFound
  | Other
deriving DecidableEq, Repr

/-- sqlx migration errors; their payload is opaque to this crate. -/
inductive MigrateErr where
  | Failed
deriving DecidableEq, Repr

/-- `DatabaseConnectionError` from `utils/connection.rs`: the `#[from]`
conversions wrap a driver error or a migration error. -/
inductive DatabaseConnectionError where
  | ConnectionError (e : SqlxError)
  | MigrateError (e : MigrateErr)
deriving DecidableEq, Repr

/-- `DatabaseError` from `utils/error.rs`: three variants — a wrapped
driver/query error, a wrapped connection-layer error, and
`ModelNotFound(&'static str)`. -/
inductive DatabaseError where
  | DatabaseQuery (e : SqlxError)
  | DatabaseConnectionError (e : DatabaseConnectionError)
  | ModelNotFound (entity : String)
deriving DecidableEq, Repr

/-- `ModelResult<T> = Result<T, DatabaseError>`. -/
abbrev ModelResult (α : Type) := Except DatabaseError α

/-- The `users` row / `UserModel` struct: `password` is the raw column
value, nullable at the SQL level (the UPDATE statement tests
`password IS NULL`). -/
structure UserModel where
  id : Int
  username : String
  email : String
  password : Option PwText
  created_at : Nat
deriving DecidableEq, Repr

/-- `UserCreation` input DTO. -/
structure UserCreation where
  username : String
  password : String
  email : String
deriving DecidableEq, Repr

/-- `UserUpdate` input DTO: all four fields optional. -/
structure UserUpdate where
  username : Option String
  email : Option String
  old_password : Option String
  new_password : Option String
deriving DecidableEq, Repr

/-- `UserResult` output projection: only `id`, `username`, `created_at`. -/
structure UserResult where
  id : Int
  username : String
  created_at : Nat
deriving DecidableEq, Repr

/-- The visible state of the `users` table plus the generators the SQL
draws from: `nextId` for the generated primary key, `nextSalt` for
`gen_salt` (each draw is fresh), `now` for the `created_at` default. -/
structure Db where
  rows : List UserModel
  nextId : Int
  nextSalt : Nat
  now : Nat
deriving DecidableEq, Repr

/-- `UserModel::create_new`: INSERT username, email,
`crypt(password, gen_salt('bf', 8))` RETURNING *.  `id` and `created_at`
are filled by the database. -/
def UserModel.create_new (creation : UserCreation) (db : Db) : Db × UserModel :=
  let u : UserModel :=
    { id := db.nextId
      username := creation.username
      email := creation.email
      password := some (crypt creation.password (gen_salt db.nextSalt))
      created_at := db.now }
  ({ db with rows := db.rows ++ [u], nextId := db.nextId + 1, nextSalt := db.nextSalt + 1 }, u)

/-- `UserModel::get`: `SELECT * FROM users WHERE id = $1` through
`fetch_one`, which returns the first row or fails with the driver's
`RowNotFound`; the `?` operator converts that into
`DatabaseError::DatabaseQuery`. -/
def UserModel.get (id : Int) (db : Db) : ModelResult UserModel :=
  match db.rows.find? (fun u => u.id == id) with
  | some u => Except.ok u
  | none => Except.error (DatabaseError.DatabaseQuery SqlxError.RowNotFound)

/-- Row-selection predicate of the UPDATE in `UserModel::edit`:
`id = $5 AND ($3 IS NULL OR crypt($3, password) = password)` with
`$3 = old_password`. -/
def editWhere (self_id : Int) (up : UserUpdate) (u : UserModel) : Bool :=
  u.id == self_id && (up.old_password.isNone || sqlVerify up.old_password u.password)

/-- Condition of the CASE in the SET clause of `UserModel::edit`:
`$3 IS NOT NULL AND (password IS NULL OR crypt($4, password) = password)`
with `$3 = old_password` and `$4 = new_password` (the bind order of the
`query_as!` arguments). -/
def editCaseCond (up : UserUpdate) (u : UserModel) : Bool :=
  up.old_password.isSome && (u.password.isNone || sqlVerify up.new_password u.password)

/-- The SET clause of `UserModel::edit` applied to one selected row:
`username = COALESCE($1, username)`, `email = COALESCE($2, email)`, and
`password = CASE WHEN ... THEN crypt($3, gen_salt('bf')) ELSE password END`
— note the THEN branch hashes `$3`, i.e. `old_password`.  Returns the
updated row and the salt counter after any `gen_salt` draw. -/
def editApply (up : UserUpdate) (u : UserModel) (salt : Nat) : UserModel × Nat :=
  if editCaseCond up u then
    ({ u with
        username := up.username.getD u.username
        email := up.email.getD u.email
        password := some (crypt (up.old_password.getD "") (gen_salt salt)) },
      salt + 1)
  else
    ({ u with
        username := up.username.getD u.username
        email := up.email.getD u.email },
      salt)

/-- The UPDATE statement over the whole table: every row satisfying the
WHERE predicate is rewritten by the SET clause; the rewritten rows are
also collected in order (the RETURNING set). -/
def updateRows (self_id : Int) (up : UserUpdate) :
    List UserModel → Nat → List UserModel × List UserModel × Nat
  | [], salt => ([], [], salt)
  | u :: rest, salt =>
    if editWhere self_id up u then
      ((editApply up u salt).1 :: (updateRows self_id up rest (editApply up u salt).2).1,
        (editApply up u salt).1 :: (updateRows self_id up rest (editApply up u salt).2).2.1,
        (updateRows self_id up rest (editApply up u salt).2).2.2)
    else
      (u :: (updateRows self_id up rest salt).1,
        (updateRows self_id up rest salt).2.1,
        (updateRows self_id up rest salt).2.2)

/-- The rows of the table carrying a given primary-key value, in order:
the selection `WHERE id = sid` alone.  Under the identifier-uniqueness
invariant this list is a singleton for every stored id. -/
def rowsWithId (sid : Int) : List UserModel → List UserModel
  | [] => []
  | v :: rest => if v.id == sid then v :: rowsWithId sid rest else rowsWithId sid rest

/-- `UserModel::edit`: runs the UPDATE, takes the RETURNING set through
`fetch_optional` (first returned row, if any) and maps the empty case to
`DatabaseError::ModelNotFound("user")`. -/
def UserModel.edit (self_id : Int) (up : UserUpdate) (db : Db) : Db × ModelResult UserModel :=
  let r := updateRows self_id up db.rows db.nextSalt
  match r.2.1.head? with
  | some u => ({ db with rows := r.1, nextSalt := r.2.2 }, Except.ok u)
  | none => ({ db with rows := r.1, nextSalt := r.2.2 },
      Except.error (DatabaseError.ModelNotFound "user"))

/-- `UserModel::into_result`: project `id`, `username`, `created_at`. -/
def UserModel.into_result (u : UserModel) : UserResult :=
  { id := u.id, username := u.username, created_at := u.created_at }

/-!
Connection manager, `utils/connection.rs`.

`get_db_connection` first checks the `CONNECTION` `OnceLock`; on a miss it
builds a pool, runs the migrator, and publishes through
`OnceLock::get_or_init`.  Two models are used: an interleaving model in
which each await point of the function is one atomic step of a thread
(for the concurrency claim), and a sequential model parametrized by the
outcomes of the two fallible awaits (for the failure claim).
-/

/-- Program counter of one caller inside `get_db_connection`.  Pools are
identified by the creation counter value at the moment `connect` ran.
`start`: about to check `CONNECTION.get()`; `connected p`: built pool `p`,
about to run migrations; `migrated p`: about to call `get_or_init`;
`done p`: returned holding pool `p`. -/
inductive TPc where
  | start
  | connected (pool : Nat)
  | migrated (pool : Nat)
  | done (pool : Nat)
deriving DecidableEq, Repr

/-- Process state for N concurrent callers of `get_db_connection`:
`published` is the `CONNECTION` `OnceLock` content, `poolsCreated` counts
`PgPoolOptions::connect` completions, `migrationRuns` counts
`Migrator::run` executions. -/
structure InitState where
  published : Option Nat
  poolsCreated : Nat
  migrationRuns : Nat
  threads : List TPc
deriving DecidableEq, Repr

/-- Replace thread `i`'s program counter. -/
def setPc (s : InitState) (i : Nat) (pc : TPc) : InitState :=
  { s with threads := s.threads.set i pc }

/-- One atomic step of thread `i`: the `CONNECTION.get()` check (returning
early on a hit, else completing `connect`), the migration run, or the
`get_or_init` publish — which atomically keeps the first value stored and
discards the pool of a losing caller. -/
def stepThread (s : InitState) (i : Nat) : InitState :=
  match s.threads[i]? with
  | none => s
  | some TPc.start =>
    match s.published with
    | some p => setPc s i (TPc.done p)
    | none =>
      { setPc s i (TPc.connected s.poolsCreated) with poolsCreated := s.poolsCreated + 1 }
  | some (TPc.connected p) =>
    { setPc s i (TPc.migrated p) with migrationRuns := s.migrationRuns + 1 }
  | some (TPc.migrated p) =>
    match s.published with
    | some q => setPc s i (TPc.done q)
    | none => { setPc s i (TPc.done p) with published := some p }
  | some (TPc.done _) => s

/-- N callers, none yet started, empty `OnceLock`. -/
def initState (n : Nat) : InitState :=
  { published := none, poolsCreated := 0, migrationRuns := 0, threads := List.replicate n TPc.start }

/-- Run a schedule: a list of thread indices, each performing its next
atomic step in turn. -/
def runSched (s : InitState) (sched : List Nat) : InitState :=
  sched.foldl stepThread s

/-- Sequential state of the connection manager for the failure analysis. -/
structure ConnState where
  connection : Option Nat
  poolsCreated : Nat
  migrationAttempts : Nat
deriving DecidableEq, Repr

/-- Outcome of the fallible `connect` await. -/
inductive ConnectOutcome where
  | ok
  | connectFail (e : SqlxError)
deriving DecidableEq, Repr

/-- Outcome of the fallible migrator construction / `run` awaits. -/
inductive MigrateOutcome where
  | ok
  | migrateFail (e : MigrateErr)
deriving DecidableEq, Repr

/-- `get_db_connection`, sequentially, with the outcomes of its two
fallible awaits as parameters: return the published pool if the
`OnceLock` is filled; otherwise connect (`?` propagates a failure as
`ConnectionError`), run migrations (`?` propagates a failure as
`MigrateError`, before anything is published), then publish with
`get_or_init` and return the stored pool. -/
def get_db_connection (co : ConnectOutcome) (mo : MigrateOutcome) (s : ConnState) :
    ConnState × Except DatabaseConnectionError Nat :=
  match s.connection with
  | some p => (s, Except.ok p)
  | none =>
    match co with
    | ConnectOutcome.connectFail e =>
      (s, Except.error (DatabaseConnectionError.ConnectionError e))
    | ConnectOutcome.ok =>
      let pool := s.poolsCreated
      let s1 := { s with poolsCreated := s.poolsCreated + 1 }
      match mo with
      | MigrateOutcome.migrateFail e =>
        ({ s1 with migrationAttempts := s1.migrationAttempts + 1 },
          Except.error (DatabaseConnectionError.MigrateError e))
      | MigrateOutcome.ok =>
        let s2 := { s1 with migrationAttempts := s1.migrationAttempts + 1 }
        match s2.connection with
        | some p => (s2, Except.ok p)
        | none => ({ s2 with connection := some pool }, Except.ok pool)

/-- Alias for the connection-layer error type, usable inside the
`DatabaseError` namespace where the bare name would resolve to the
homonymous variant. -/
abbrev ConnLayerError := DatabaseConnectionError

/-- `impl From<DatabaseConnectionError> for DatabaseError` generated by
`#[from]` on the `DatabaseConnectionError` variant: how the `?` in
`db!()` surfaces a connectivity failure inside a repository operation. -/
def DatabaseError.from_conn (e : ConnLayerError) : DatabaseError :=
  DatabaseError.DatabaseConnectionError e

/-- Kind discriminator: the `DatabaseQuery` variant. -/
def DatabaseError.isQueryKind : DatabaseError → Bool
  | DatabaseError.DatabaseQuery _ => true
  | _ => false

/-- Kind discriminator: the `DatabaseConnectionError` variant. -/
def DatabaseError.isConnKind : DatabaseError → Bool
  | DatabaseError.DatabaseConnectionError _ => true
  | _ => false

/-- Kind discriminator: the `ModelNotFound` variant. -/
def DatabaseError.isNotFoundKind : DatabaseError → Bool
  | DatabaseError.ModelNotFound _ => true
  | _ => false

/-- Sample row: a user whose stored password is a bcrypt hash of `"old"`
drawn with salt 0. -/
def sampleUser : UserModel :=
  { id := 1
    username := "a"
    email := "a@x.com"
    password := some (PwText.hash ⟨0, "old"⟩)
    created_at := 0 }

/-- Sample table state holding exactly `sampleUser`. -/
def sampleDb : Db :=
  { rows := [sampleUser], nextId := 2, nextSalt := 1, now := 0 }

/-- Sample update: correct current password, requesting a change to
`"new"` (the spec's authenticated-password-change scenario). -/
def sampleChange : UserUpdate :=
  { username := none, email := none, old_password := some "old", new_password := some "new" }

/-- Sample update: wrong current password together with a username change
(the spec's wrong-password-rejection scenario). -/
def sampleWrong : UserUpdate :=
  { username := some "changed", email := none, old_password := some "wrong",
    new_password := some "new" }

/-- Sample update: correct current password, no new password. -/
def sampleOldOnly : UserUpdate :=
  { username := none, email := none, old_password := some "old", new_password := none }

/-- Sample row agreeing with `sampleUser` on `id`, `username` and
`created_at` but with a different email and no stored password. -/
def sampleUserAltEmail : UserModel :=
  { sampleUser with email := "b@x.com", password := none }

/-- A schedule for two concurrent first callers in which both pass the
`CONNECTION.get()` check before either publishes. -/
def raceSched : List Nat := [0, 1, 0, 0, 1, 1]

/-!  Helper lemmas about the UPDATE statement. -/

theorem updateRows_cons (sid : Int) (up : UserUpdate) (v : UserModel) (rest : List UserModel)
    (salt : Nat) :
    updateRows sid up (v :: rest) salt =
      if editWhere sid up v then
        ((editApply up v salt).1 :: (updateRows sid up rest (editApply up v salt).2).1,
          (editApply up v salt).1 :: (updateRows sid up rest (editApply up v salt).2).2.1,
          (updateRows sid up rest (editApply up v salt).2).2.2)
      else
        (v :: (updateRows sid up rest salt).1,
          (updateRows sid up rest salt).2.1,
          (updateRows sid up rest salt).2.2) := rfl

theorem rowsWithId_cons (sid : Int) (v : UserModel) (rest : List UserModel) :
    rowsWithId sid (v :: rest) =
      if v.id == sid then v :: rowsWithId sid rest else rowsWithId sid rest := rfl

theorem rowsWithId_nil_all (sid : Int) :
    ∀ rows : List UserModel, rowsWithId sid rows = [] →
      ∀ v ∈ rows, (v.id == sid) = false := by
  intro rows
  induction rows with
  | nil => intro _ v hv; exact absurd hv (List.not_mem_nil v)
  | cons w rest ih =>
    intro h v hv
    rw [rowsWithId_cons] at h
    by_cases hw : (w.id == sid) = true
    · rw [if_pos hw] at h; exact absurd h (List.cons_ne_nil w _)
    · rw [if_neg hw] at h
      rcases List.mem_cons.mp hv with hveq | hvmem
      · subst hveq; exact eq_false_of_ne_true hw
      · exact ih h v hvmem

theorem updateRows_no_match (sid : Int) (up : UserUpdate) :
    ∀ (rows : List UserModel) (salt : Nat),
      (∀ v ∈ rows, editWhere sid up v = false) →
      updateRows sid up rows salt = (rows, [], salt) := by
  intro rows
  induction rows with
  | nil => intro salt _; rfl
  | cons v rest ih =>
    intro salt h
    have hv : ¬editWhere sid up v = true := by
      rw [h v (List.mem_cons_self v rest)]; exact Bool.false_ne_true
    have hrest : ∀ w ∈ rest, editWhere sid up w = false :=
      fun w hw => h w (List.mem_cons_of_mem v hw)
    rw [updateRows_cons, if_neg hv, ih salt hrest]

theorem map_subst_of_no_id (sid : Int) (x : UserModel) :
    ∀ rows : List UserModel, (∀ v ∈ rows, (v.id == sid) = false) →
      rows.map (fun v => if v.id == sid then x else v) = rows := by
  intro rows
  induction rows with
  | nil => intro _; rfl
  | cons v rest ih =>
    intro h
    have hv : ¬(v.id == sid) = true := by
      rw [h v (List.mem_cons_self v rest)]; exact Bool.false_ne_true
    have hrest := fun w hw => h w (List.mem_cons_of_mem v hw)
    rw [List.map_cons, if_neg hv, ih hrest]

theorem map_subst_self (sid : Int) (u : UserModel) :
    ∀ rows : List UserModel, (∀ v ∈ rows, (v.id == sid) = true → v = u) →
      rows.map (fun v => if v.id == sid then u else v) = rows := by
  intro rows
  induction rows with
  | nil => intro _; rfl
  | cons v rest ih =>
    intro h
    have hrest := fun w hw => h w (List.mem_cons_of_mem v hw)
    by_cases hv : (v.id == sid) = true
    · have hvu : v = u := h v (List.mem_cons_self v rest) hv
      rw [List.map_cons, if_pos hv, ih hrest, ← hvu]
    · rw [List.map_cons, if_neg hv, ih hrest]

theorem mem_rowsWithId (sid : Int) :
    ∀ rows : List UserModel, ∀ v ∈ rows, (v.id == sid) = true → v ∈ rowsWithId sid rows := by
  intro rows
  induction rows with
  | nil => intro v hv; exact absurd hv (List.not_mem_nil v)
  | cons w rest ih =>
    intro v hv hid
    rw [rowsWithId_cons]
    rcases List.mem_cons.mp hv with hveq | hvmem
    · subst hveq; rw [if_pos hid]; exact List.mem_cons_self v _
    · by_cases hw2 : (w.id == sid) = true
      · rw [if_pos hw2]; exact List.mem_cons_of_mem w (ih v hvmem hid)
      · rw [if_neg hw2]; exact ih v hvmem hid

theorem eq_of_rowsWithId_singleton (sid : Int) (u : UserModel) (rows : List UserModel)
    (hf : rowsWithId sid rows = [u]) :
    ∀ v ∈ rows, (v.id == sid) = true → v = u := by
  intro v hv hid
  have hm := mem_rowsWithId sid rows v hv hid
  rw [hf] at hm
  exact List.mem_singleton.mp hm

theorem editCaseCond_false_of_selected (up : UserUpdate) (u : UserModel)
    (h2 : (up.old_password.isNone || sqlVerify up.old_password u.password) = true)
    (hnp : up.new_password = none) :
    editCaseCond up u = false := by
  cases hop : up.old_password with
  | none => simp [editCaseCond, hop]
  | some p =>
    rw [hop] at h2
    have hv : sqlVerify (some p) u.password = true := by simpa using h2
    cases hpw : u.password with
    | none => rw [hpw] at hv; simp [sqlVerify] at hv
    | some t => simp [editCaseCond, hop, hpw, hnp, sqlVerify]

theorem updateRows_unique (sid : Int) (up : UserUpdate) (u : UserModel) :
    ∀ (rows : List UserModel) (salt : Nat),
      rowsWithId sid rows = [u] →
      editWhere sid up u = true →
      updateRows sid up rows salt =
        (rows.map (fun v => if v.id == sid then (editApply up u salt).1 else v),
          [(editApply up u salt).1],
          (editApply up u salt).2) := by
  intro rows
  induction rows with
  | nil => intro salt hf _; exact absurd hf.symm (List.cons_ne_nil u [])
  | cons v rest ih =>
    intro salt hf hw
    rw [rowsWithId_cons] at hf
    by_cases hv : (v.id == sid) = true
    · rw [if_pos hv] at hf
      have hvu : v = u := (List.cons_eq_cons.mp hf).1
      have hrest0 : rowsWithId sid rest = [] := (List.cons_eq_cons.mp hf).2
      have hrestid : ∀ w ∈ rest, (w.id == sid) = false := rowsWithId_nil_all sid rest hrest0
      have hrestw : ∀ w ∈ rest, editWhere sid up w = false := by
        intro w hw2
        rw [editWhere, hrestid w hw2, Bool.false_and]
      subst hvu
      rw [updateRows_cons, if_pos hw, updateRows_no_match sid up rest _ hrestw,
        List.map_cons, if_pos hv, map_subst_of_no_id sid _ rest hrestid]
    · rw [if_neg hv] at hf
      have hvw : ¬editWhere sid up v = true := by
        rw [editWhere, eq_false_of_ne_true hv, Bool.false_and]; exact Bool.false_ne_true
      rw [updateRows_cons, if_neg hvw, ih salt hf hw, List.map_cons, if_neg hv]

/-- C3: for every existing user and every `UserUpdate` in which
`old_password` is supplied but does not verify against the stored hash,
`edit` leaves the table entirely unchanged (username, email and password
keep their prior values) and returns the `ModelNotFound("user")` error
kind. -/
theorem edit_wrong_password_untouched (db : Db) (u : UserModel) (p : String) (up : UserUpdate)
    (hf : rowsWithId u.id db.rows = [u])
    (hold : up.old_password = some p)
    (hver : sqlVerify (some p) u.password = false) :
    UserModel.edit u.id up db = (db, Except.error (DatabaseError.ModelNotFound "user")) := by
  have hwu : editWhere u.id up u = false := by
    rw [editWhere, hold]
    simp [hver]
  have hall : ∀ v ∈ db.rows, editWhere u.id up v = false := by
    intro v hv
    by_cases hid : (v.id == u.id) = true
    · rw [eq_of_rowsWithId_singleton u.id u db.rows hf v hv hid]
      exact hwu
    · rw [editWhere, eq_false_of_ne_true hid, Bool.false_and]
  have hupd := updateRows_no_match u.id up db.rows db.nextSalt hall
  simp [UserModel.edit, hupd]

/-- C3 witness: the spec's wrong-password scenario on the sample table. -/
theorem edit_wrong_password_untouched_witness :
    UserModel.edit sampleUser.id sampleWrong sampleDb
      = (sampleDb, Except.error (DatabaseError.ModelNotFound "user")) :=
  edit_wrong_password_untouched sampleDb sampleUser "wrong" sampleWrong rfl rfl (by decide)

/-- C10: the all-absent `UserUpdate` is an identity operation: `edit`
succeeds and returns the record with every column unchanged, and the
table is untouched. -/
theorem edit_all_absent_identity (db : Db) (u : UserModel)
    (hf : rowsWithId u.id db.rows = [u]) :
    UserModel.edit u.id
        { username := none, email := none, old_password := none, new_password := none } db
      = (db, Except.ok u) := by
  have hw : editWhere u.id ⟨none, none, none, none⟩ u = true := by
    simp [editWhere]
  have happ : editApply ⟨none, none, none, none⟩ u db.nextSalt = (u, db.nextSalt) := by
    simp [editApply, editCaseCond]
  have hupd := updateRows_unique u.id ⟨none, none, none, none⟩ u db.rows db.nextSalt hf hw
  rw [happ] at hupd
  have hmap : db.rows.map (fun v => if v.id == u.id then u else v) = db.rows :=
    map_subst_self u.id u db.rows (eq_of_rowsWithId_singleton u.id u db.rows hf)
  rw [hmap] at hupd
  simp [UserModel.edit, hupd]

/-- C10 witness: the all-absent update on the sample table. -/
theorem edit_all_absent_identity_witness :
    UserModel.edit sampleUser.id
        { username := none, email := none, old_password := none, new_password := none } sampleDb
      = (sampleDb, Except.ok sampleUser) :=
  edit_all_absent_identity sampleDb sampleUser rfl

/-- C4: on any row selected by the UPDATE, an absent `username`, `email`
or `new_password` leaves the corresponding column unchanged and `id` and
`created_at` are never changed; and an update supplying only `email`
succeeds regardless of the stored password and changes only the email
column of the one row with the user's id. -/
theorem edit_partial_update_frame (db : Db) (u : UserModel) (up : UserUpdate) (e : String)
    (salt : Nat)
    (hf : rowsWithId u.id db.rows = [u])
    (hw : editWhere u.id up u = true) :
    (editApply up u salt).1.id = u.id ∧
    (editApply up u salt).1.created_at = u.created_at ∧
    (up.username = none → (editApply up u salt).1.username = u.username) ∧
    (up.email = none → (editApply up u salt).1.email = u.email) ∧
    (up.new_password = none → (editApply up u salt).1.password = u.password) ∧
    UserModel.edit u.id
        { username := none, email := some e, old_password := none, new_password := none } db
      = ({ db with
            rows := db.rows.map (fun v => if v.id == u.id then { u with email := e } else v) },
          Except.ok { u with email := e }) := by
  refine ⟨?_, ?_, ?_, ?_, ?_, ?_⟩
  · by_cases hc : editCaseCond up u = true <;> simp [editApply, hc]
  · by_cases hc : editCaseCond up u = true <;> simp [editApply, hc]
  · intro hun
    by_cases hc : editCaseCond up u = true <;> simp [editApply, hc, hun]
  · intro hem
    by_cases hc : editCaseCond up u = true <;> simp [editApply, hc, hem]
  · intro hnp
    have h2 : (up.old_password.isNone || sqlVerify up.old_password u.password) = true := by
      rw [editWhere, Bool.and_eq_true] at hw
      exact hw.2
    simp [editApply, editCaseCond_false_of_selected up u h2 hnp]
  · have hwE : editWhere u.id ⟨none, some e, none, none⟩ u = true := by
      simp [editWhere]
    have happ : editApply ⟨none, some e, none, none⟩ u db.nextSalt
        = ({ u with email := e }, db.nextSalt) := by
      simp [editApply, editCaseCond]
    have hupd := updateRows_unique u.id ⟨none, some e, none, none⟩ u db.rows db.nextSalt hf hwE
    rw [happ] at hupd
    simp [UserModel.edit, hupd]

/-- C4 witness: an update carrying only a verifying `old_password` keeps
id and password; the email-only update evaluates as stated on the sample
table. -/
theorem edit_partial_update_frame_witness :
    (editApply sampleOldOnly sampleUser 5).1.id = sampleUser.id ∧
    (editApply sampleOldOnly sampleUser 5).1.password = sampleUser.password ∧
    UserModel.edit sampleUser.id
        { username := none, email := some "b@x.com", old_password := none, new_password := none }
        sampleDb
      = ({ sampleDb with
            rows := sampleDb.rows.map
              (fun v => if v.id == sampleUser.id then { sampleUser with email := "b@x.com" }
                else v) },
          Except.ok { sampleUser with email := "b@x.com" }) := by
  have h := edit_partial_update_frame sampleDb sampleUser sampleOldOnly "b@x.com" 5 rfl (by decide)
  exact ⟨h.1, h.2.2.2.2.1 rfl, h.2.2.2.2.2⟩

/-- C1: evaluation of `edit` in the spec's authenticated-password-change
scenario (stored password is a hash of "old"; the update supplies
`old_password = "old"`, `new_password = "new"`): the statement succeeds
but stores no hash of "new" — the row, password included, is returned and
kept unchanged, because the SET clause's CASE verifies `$4` (the new
password) against the stored hash and would store a hash of `$3` (the old
password): the two bind parameters are swapped relative to the documented
policy. -/
theorem edit_password_change_swapped_bug :
    UserModel.edit 1 sampleChange sampleDb = (sampleDb, Except.ok sampleUser) ∧
    sampleUser.password = some (PwText.hash ⟨0, "old"⟩) ∧
    sampleUser.password ≠ some (PwText.hash ⟨sampleDb.nextSalt, "new"⟩) := by
  refine ⟨rfl, rfl, by decide⟩

/-- C2 counterexample: the sample table has no row with id 7, yet
`get(7)` does not fail with the `ModelNotFound("user")` kind (it fails
with the generic query kind instead). -/
theorem get_missing_not_modelnotfound_cex :
    rowsWithId 7 sampleDb.rows = [] ∧
    UserModel.get 7 sampleDb ≠ Except.error (DatabaseError.ModelNotFound "user") := by
  refine ⟨rfl, ?_⟩
  intro h
  rw [show UserModel.get 7 sampleDb
      = Except.error (DatabaseError.DatabaseQuery SqlxError.RowNotFound) from rfl] at h
  injection h with h2
  exact absurd h2 (by decide)

/-- C2 amended: for every id for which no user row exists, `get(id)`
fails with the generic `DatabaseQuery` kind wrapping the driver's
row-not-found error (produced by `fetch_one`), not with
`ModelNotFound("user")`. -/
theorem get_missing_row_query_error (id : Int) (db : Db)
    (h : rowsWithId id db.rows = []) :
    UserModel.get id db = Except.error (DatabaseError.DatabaseQuery SqlxError.RowNotFound) := by
  have hall := rowsWithId_nil_all id db.rows h
  have hfind : db.rows.find? (fun u => u.id == id) = none := by
    rw [List.find?_eq_none]
    intro v hv
    rw [hall v hv]
    exact Bool.false_ne_true
  simp [UserModel.get, hfind]

/-- C2 amended witness: `get(7)` on the sample table. -/
theorem get_missing_row_query_error_witness :
    UserModel.get 7 sampleDb
      = Except.error (DatabaseError.DatabaseQuery SqlxError.RowNotFound) :=
  get_missing_row_query_error 7 sampleDb rfl

/-- C7: `create_new` returns the stored record with the supplied username
and email, with `id` and `created_at` populated from the database state,
and stores a freshly salted hash of the plaintext — never the plaintext
itself — and a second call with the identical plaintext stores a
different password value (fresh salt per call). -/
theorem create_new_salted_hash (c : UserCreation) (db : Db) :
    (UserModel.create_new c db).2.username = c.username ∧
    (UserModel.create_new c db).2.email = c.email ∧
    (UserModel.create_new c db).2.password
      = some (crypt c.password (gen_salt db.nextSalt)) ∧
    (UserModel.create_new c db).2.password ≠ some (PwText.plain c.password) ∧
    (UserModel.create_new c db).2.id = db.nextId ∧
    (UserModel.create_new c db).2.created_at = db.now ∧
    (UserModel.create_new c db).1.rows = db.rows ++ [(UserModel.create_new c db).2] ∧
    (UserModel.create_new c ((UserModel.create_new c db).1)).2.password
      ≠ (UserModel.create_new c db).2.password := by
  refine ⟨rfl, rfl, rfl, ?_, rfl, rfl, rfl, ?_⟩
  · simp [UserModel.create_new, crypt, gen_salt]
  · simp [UserModel.create_new, crypt, gen_salt]

/-- C8: the projection to `UserResult` is a total function that copies
exactly `id`, `username` and `created_at`, and its output does not depend
on `email` or `password`: two records agreeing on the three copied fields
project to the same `UserResult`. -/
theorem into_result_projection (u v : UserModel)
    (h1 : u.id = v.id) (h2 : u.username = v.username) (h3 : u.created_at = v.created_at) :
    (UserModel.into_result u).id = u.id ∧
    (UserModel.into_result u).username = u.username ∧
    (UserModel.into_result u).created_at = u.created_at ∧
    UserModel.into_result u = UserModel.into_result v := by
  refine ⟨rfl, rfl, rfl, ?_⟩
  simp [UserModel.into_result, h1, h2, h3]

/-- C8 witness: two sample records differing only in email and password
have the same projection. -/
theorem into_result_projection_witness :
    (UserModel.into_result sampleUser).id = sampleUser.id ∧
    (UserModel.into_result sampleUser).username = sampleUser.username ∧
    (UserModel.into_result sampleUser).created_at = sampleUser.created_at ∧
    UserModel.into_result sampleUser = UserModel.into_result sampleUserAltEmail :=
  into_result_projection sampleUser sampleUserAltEmail rfl rfl rfl

/-- C9 counterexample: a connectivity failure surfaced through the
`#[from]` conversion is neither of the two kinds the claim allows — it is
the dedicated `DatabaseConnectionError` variant, not a `DatabaseQuery`
wrapper and not `ModelNotFound`. -/
theorem dberror_conn_kind_cex :
    DatabaseError.isQueryKind
        (DatabaseError.from_conn (DatabaseConnectionError.ConnectionError SqlxError.Other))
      = false ∧
    DatabaseError.isNotFoundKind
        (DatabaseError.from_conn (DatabaseConnectionError.ConnectionError SqlxError.Other))
      = false :=
  ⟨rfl, rfl⟩

/-- C9 amended: the data-operation error type has exactly three kinds —
`DatabaseQuery`, `DatabaseConnectionError` and `ModelNotFound` — and a
connectivity failure surfaces as the dedicated connection-error kind
wrapping the `ConnectionError`, not as the query kind. -/
theorem dberror_three_kinds (e : DatabaseError) (ce : DatabaseConnectionError) :
    (DatabaseError.isQueryKind e || DatabaseError.isConnKind e
      || DatabaseError.isNotFoundKind e) = true ∧
    DatabaseError.from_conn ce = DatabaseError.DatabaseConnectionError ce ∧
    DatabaseError.isConnKind (DatabaseError.from_conn ce) = true := by
  refine ⟨?_, rfl, rfl⟩
  cases e <;> rfl

/-- Invariant of the interleaving model: every caller that has returned
holds exactly the pool stored in the `OnceLock`. -/
def InvDone (s : InitState) : Prop :=
  ∀ p : Nat, TPc.done p ∈ s.threads → s.published = some p

theorem invDone_step (s : InitState) (i : Nat) (h : InvDone s) :
    InvDone (stepThread s i) := by
  intro p hp
  cases hth : s.threads[i]? with
  | none =>
    simp only [stepThread, hth] at hp ⊢
    exact h p hp
  | some pc =>
    cases pc with
    | start =>
      cases hpub : s.published with
      | some q =>
        simp only [stepThread, hth, hpub, setPc] at hp ⊢
        rcases List.mem_or_eq_of_mem_set hp with hmem | heq
        · rw [← hpub]; exact h p hmem
        · rw [TPc.done.injEq] at heq; rw [heq]
      | none =>
        simp only [stepThread, hth, hpub, setPc] at hp ⊢
        rcases List.mem_or_eq_of_mem_set hp with hmem | heq
        · rw [← hpub]; exact h p hmem
        · exact absurd heq (by intro hh; cases hh)
    | connected q =>
      simp only [stepThread, hth, setPc] at hp ⊢
      rcases List.mem_or_eq_of_mem_set hp with hmem | heq
      · exact h p hmem
      · exact absurd heq (by intro hh; cases hh)
    | migrated q =>
      cases hpub : s.published with
      | some r =>
        simp only [stepThread, hth, hpub, setPc] at hp ⊢
        rcases List.mem_or_eq_of_mem_set hp with hmem | heq
        · rw [← hpub]; exact h p hmem
        · rw [TPc.done.injEq] at heq; rw [heq]
      | none =>
        simp only [stepThread, hth, hpub, setPc] at hp ⊢
        rcases List.mem_or_eq_of_mem_set hp with hmem | heq
        · exact absurd (hpub ▸ h p hmem) (by intro hh; cases hh)
        · rw [TPc.done.injEq] at heq; rw [heq]
    | done q =>
      simp only [stepThread, hth] at hp ⊢
      exact h p hp

theorem invDone_runSched (sched : List Nat) :
    ∀ s : InitState, InvDone s → InvDone (runSched s sched) := by
  induction sched with
  | nil => intro s h; exact h
  | cons i rest ih =>
    intro s h
    exact ih (stepThread s i) (invDone_step s i h)

theorem invDone_init (n : Nat) : InvDone (initState n) := by
  intro p hp
  have := List.eq_of_mem_replicate hp
  exact absurd this (by intro hh; cases hh)

/-- C5 counterexample: with two concurrent first callers and the schedule
`raceSched`, both callers finish holding the same published pool, but the
migration run executes twice — not exactly once as claimed. -/
theorem acquire_race_two_migrations_cex :
    (runSched (initState 2) raceSched).migrationRuns = 2 ∧
    (runSched (initState 2) raceSched).threads = [TPc.done 0, TPc.done 0] ∧
    (runSched (initState 2) raceSched).published = some 0 :=
  ⟨rfl, rfl, rfl⟩

/-- C5 amended: under every interleaving of any number of concurrent
first callers, every caller that completes holds the pool published by
the atomic `get_or_init` — so at most one pool is ever the process-wide
connection source, losing callers' pools are discarded, and all completed
callers hold the same pool; migration, however, may run once per caller
that started bootstrapping before publication. -/
theorem acquire_all_same_pool (n : Nat) (sched : List Nat) (p q : Nat)
    (hp : TPc.done p ∈ (runSched (initState n) sched).threads)
    (hq : TPc.done q ∈ (runSched (initState n) sched).threads) :
    p = q ∧ (runSched (initState n) sched).published = some p := by
  have hI := invDone_runSched sched (initState n) (invDone_init n)
  have h1 := hI p hp
  have h2 := hI q hq
  refine ⟨?_, h1⟩
  have := h1.symm.trans h2
  exact Option.some.inj this

/-- C5 amended witness: both finished callers of the race schedule hold
pool 0, the published one. -/
theorem acquire_all_same_pool_witness :
    0 = 0 ∧ (runSched (initState 2) raceSched).published = some 0 :=
  acquire_all_same_pool 2 raceSched 0 0 (by decide) (by decide)

/-- C6: when the migration step fails on a first call, the call returns
the `MigrateError` kind and nothing is published; a subsequent call with
succeeding awaits re-runs the full bootstrap — it creates a brand-new
pool (distinct from the half-migrated one), attempts migration again, and
only then publishes. -/
theorem acquire_migrate_fail_retries (s : ConnState) (e : MigrateErr)
    (h : s.connection = none) :
    (get_db_connection ConnectOutcome.ok (MigrateOutcome.migrateFail e) s).2
      = Except.error (DatabaseConnectionError.MigrateError e) ∧
    (get_db_connection ConnectOutcome.ok (MigrateOutcome.migrateFail e) s).1.connection
      = none ∧
    (get_db_connection ConnectOutcome.ok MigrateOutcome.ok
        (get_db_connection ConnectOutcome.ok (MigrateOutcome.migrateFail e) s).1).2
      = Except.ok (s.poolsCreated + 1) ∧
    s.poolsCreated + 1 ≠ s.poolsCreated ∧
    (get_db_connection ConnectOutcome.ok MigrateOutcome.ok
        (get_db_connection ConnectOutcome.ok (MigrateOutcome.migrateFail e) s).1).1.connection
      = some (s.poolsCreated + 1) ∧
    (get_db_connection ConnectOutcome.ok MigrateOutcome.ok
        (get_db_connection ConnectOutcome.ok (MigrateOutcome.migrateFail e) s).1).1.poolsCreated
      = s.poolsCreated + 2 ∧
    (get_db_connection ConnectOutcome.ok MigrateOutcome.ok
        (get_db_connection ConnectOutcome.ok
          (MigrateOutcome.migrateFail e) s).1).1.migrationAttempts
      = s.migrationAttempts + 2 := by
  simp [get_db_connection, h]

/-- C6 witness: the failure-then-retry sequence from the empty state. -/
theorem acquire_migrate_fail_retries_witness :
    (get_db_connection ConnectOutcome.ok (MigrateOutcome.migrateFail MigrateErr.Failed)
        { connection := none, poolsCreated := 0, migrationAttempts := 0 }).2
      = Except.error (DatabaseConnectionError.MigrateError MigrateErr.Failed) ∧
    (get_db_connection ConnectOutcome.ok (MigrateOutcome.migrateFail MigrateErr.Failed)
        { connection := none, poolsCreated := 0, migrationAttempts := 0 }).1.connection
      = none := by
  have h := acquire_migrate_fail_retries
    { connection := none, poolsCreated := 0, migrationAttempts := 0 } MigrateErr.Failed rfl
  exact ⟨h.1, h.2.1⟩
